import Mathlib

/-!
Shallow embedding of `src/pubmed_author_papers.py`: the PubMed author-search
script that keeps `_data/recent_pubmed_ids.txt` (the identifier set) and
`_data/papers.yml` (the citation store) for a Jekyll site.

Python strings are Lean `String`s; Python dicts with possibly-missing keys
become structures with `Option` fields (`none` = the key is absent, so that
subscripting it models a raised `KeyError`); a computation that can raise is
an `Option`/`PyResult`; the two persisted files and the lines printed to
stdout form an explicit `RunState` threaded through the orchestration
functions.  The remote Entrez search/fetch calls are black-box collaborators
and enter as function parameters.
-/

namespace PubmedJekyll

/-! ## Python string primitives

The script uses `','.join`, `', '.join`, `''.join` and `str.split(',')`.
They are modelled at the character-list level, with Python's semantics:
`''.split(',') = ['']`, and `sep.join` puts `sep` strictly between
consecutive elements. -/

/-- Python `sep.join(xs)` on character lists. -/
def pyJoinCharList (sep : List Char) : List (List Char) → List Char
  | [] => []
  | [w] => w
  | w :: ws => w ++ sep ++ pyJoinCharList sep ws

/-- Python `s.split(',')` on character lists: splits at every comma;
the empty list yields `[[]]` just as `''.split(',') == ['']`. -/
def splitCommaAux : List Char → List (List Char)
  | [] => [[]]
  | c :: rest =>
    if c = ',' then [] :: splitCommaAux rest
    else
      match splitCommaAux rest with
      | [] => [[c]]
      | w :: ws => (c :: w) :: ws

/-- Python `sep.join(xs)` on strings. -/
def pyJoin (sep : String) (xs : List String) : String :=
  String.mk (pyJoinCharList sep.data (xs.map String.data))

/-- Python `s.split(',')` on strings. -/
def pySplit (s : String) : List String :=
  (splitCommaAux s.data).map String.mk

theorem pyJoin_nil (sep : String) : pyJoin sep [] = "" := by
  cases sep
  rfl

theorem pyJoin_single (sep : String) (a : String) : pyJoin sep [a] = a := by
  cases a
  rfl

theorem pyJoin_pair (sep a b : String) : pyJoin sep [a, b] = a ++ sep ++ b := by
  cases sep; cases a; cases b
  apply String.ext
  simp [pyJoin, pyJoinCharList]

theorem splitCommaAux_ne_nil (l : List Char) : splitCommaAux l ≠ [] := by
  induction l with
  | nil => simp [splitCommaAux]
  | cons c rest ih =>
    simp only [splitCommaAux]
    split
    · simp
    · split
      · simp
      · simp

/-- Splitting a comma-free word returns just that word. -/
theorem splitCommaAux_no_comma (w : List Char) (h : ',' ∉ w) :
    splitCommaAux w = [w] := by
  induction w with
  | nil => rfl
  | cons c rest ih =>
    have hc : ¬ c = ',' := fun hcc => h (hcc ▸ List.mem_cons_self c rest)
    have hrest : ',' ∉ rest := fun hm => h (List.mem_cons_of_mem c hm)
    simp only [splitCommaAux, if_neg hc, ih hrest]

/-- Splitting past a comma-free first word peels it off. -/
theorem splitCommaAux_append (w t : List Char) (h : ',' ∉ w) :
    splitCommaAux (w ++ ',' :: t) = w :: splitCommaAux t := by
  induction w with
  | nil => simp [splitCommaAux]
  | cons c rest ih =>
    have hc : ¬ c = ',' := fun hcc => h (hcc ▸ List.mem_cons_self c rest)
    have hrest : ',' ∉ rest := fun hm => h (List.mem_cons_of_mem c hm)
    simp only [List.cons_append, splitCommaAux, if_neg hc]
    rw [List.append_eq, ih hrest]

/-- Round trip at the character-list level: splitting the comma-join of a
non-empty list of comma-free words gives the words back. -/
theorem splitCommaAux_join (xs : List (List Char)) (hne : xs ≠ [])
    (hcf : ∀ w ∈ xs, ',' ∉ w) :
    splitCommaAux (pyJoinCharList [','] xs) = xs := by
  induction xs with
  | nil => exact absurd rfl hne
  | cons w ws ih =>
    cases ws with
    | nil =>
      simpa [pyJoinCharList] using
        splitCommaAux_no_comma w (hcf w (List.mem_cons_self w []))
    | cons y ys =>
      have hw : ',' ∉ w := hcf w (List.mem_cons_self w (y :: ys))
      have hrest : ∀ v ∈ y :: ys, ',' ∉ v := fun v hv =>
        hcf v (List.mem_cons_of_mem w hv)
      have : pyJoinCharList [','] (w :: y :: ys) =
          w ++ ',' :: pyJoinCharList [','] (y :: ys) := by
        simp [pyJoinCharList]
      rw [this, splitCommaAux_append w _ hw, ih (by simp) hrest]

theorem mk_data (s : String) : String.mk s.data = s := by
  cases s
  rfl

/-- Round trip at the string level. -/
theorem pySplit_pyJoin (xs : List String) (hne : xs ≠ [])
    (hcf : ∀ x ∈ xs, ',' ∉ x.data) :
    pySplit (pyJoin "," xs) = xs := by
  unfold pySplit pyJoin
  have hsep : (",").data = [','] := rfl
  rw [hsep]
  have hmapne : xs.map String.data ≠ [] := by
    intro h
    exact hne (List.map_eq_nil_iff.mp h)
  have hmapcf : ∀ w ∈ xs.map String.data, ',' ∉ w := by
    intro w hw
    rcases List.mem_map.mp hw with ⟨x, hx, rfl⟩
    exact hcf x hx
  rw [splitCommaAux_join (xs.map String.data) hmapne hmapcf]
  rw [List.map_map]
  have : (String.mk ∘ String.data) = id := by
    funext s
    exact mk_data s
  rw [this, List.map_id]

/-- Every piece produced by `splitCommaAux` is comma-free. -/
theorem splitCommaAux_comma_free (l : List Char) :
    ∀ w ∈ splitCommaAux l, ',' ∉ w := by
  induction l with
  | nil =>
    intro w hw
    simp [splitCommaAux] at hw
    simp [hw]
  | cons c rest ih =>
    intro w hw
    simp only [splitCommaAux] at hw
    by_cases hc : c = ','
    · rw [if_pos hc] at hw
      rcases List.mem_cons.mp hw with h | h
      · simp [h]
      · exact ih w h
    · rw [if_neg hc] at hw
      rcases hsplit : splitCommaAux rest with - | ⟨v, vs⟩
      · exact absurd hsplit (splitCommaAux_ne_nil rest)
      · rw [hsplit] at hw
        rcases List.mem_cons.mp hw with h | h
        · subst h
          intro hmem
          rcases List.mem_cons.mp hmem with h | h
          · exact hc h.symm
          · exact ih v (hsplit ▸ List.mem_cons_self v vs) h
        · exact ih w (hsplit ▸ List.mem_cons_of_mem v h)

/-- Every element of `pySplit s` is comma-free. -/
theorem pySplit_comma_free (s : String) : ∀ x ∈ pySplit s, ',' ∉ x.data := by
  intro x hx
  rcases List.mem_map.mp hx with ⟨w, hw, rfl⟩
  exact splitCommaAux_comma_free s.data w hw

/-- Exception-propagating map: the Python list comprehension
`[f(i) for i in xs]` where `f` may raise (`none`). -/
def mapOption (f : α → Option β) : List α → Option (List β)
  | [] => some []
  | a :: as =>
    match f a, mapOption f as with
    | some b, some bs => some (b :: bs)
    | _, _ => none

/-! ## Data model

One structure per nested dict level the script subscripts.  An `Option`
field is `none` when the corresponding key is absent; subscripting an
absent key raises `KeyError`, which every parsing function models by
returning `none`. -/

/-- One element of `AuthorList`: keys `LastName` and `ForeName`. -/
structure AuthorInfo where
  lastName : Option String
  foreName : Option String
deriving DecidableEq

/-- The `JournalIssue` dict: keys `Volume`, `Issue`, and the
`PubDate -> Year` chain (collapsed to one `Option` since the script only
reads it inside a `try ... except KeyError` that treats a break anywhere in
the chain alike). -/
structure JournalIssueInfo where
  volume : Option String
  issue : Option String
  pubDateYear : Option String
deriving DecidableEq

/-- The `Journal` dict: keys `ISOAbbreviation` and `JournalIssue`. -/
structure JournalInfo where
  isoAbbreviation : Option String
  journalIssue : Option JournalIssueInfo
deriving DecidableEq

/-- The `Pagination` dict: key `MedlinePgn`.  A present-but-empty Python
dict is falsy exactly like the script's `pagination = False` default, so it
is modelled as the absent (`none`) case. -/
structure PaginationInfo where
  medlinePgn : Option String
deriving DecidableEq

/-- One element of `ArticleDate`: key `Year`. -/
structure ArticleDateInfo where
  year : Option String
deriving DecidableEq

/-- The `MedlineCitation -> Article` dict. -/
structure ArticleInfo where
  authorList : Option (List AuthorInfo)
  abstract : Option String
  articleDate : Option (List ArticleDateInfo)
  journal : Option JournalInfo
  articleTitle : Option String
  pagination : Option PaginationInfo
  eLocationID : Option (List String)
deriving DecidableEq

/-- One record of `results['PubmedArticle']`; the two-level access
`pubmed_entry['MedlineCitation']['Article']` is collapsed to one field. -/
structure PubmedEntry where
  article : Option ArticleInfo
deriving DecidableEq

/-! ## CitationParser: `parse_author`, `parse_journal`, `Paper.__init__` -/

/-- `parse_author`: `', '.join([author_info['LastName'], author_info['ForeName']])`;
`none` models the `KeyError` when either key is absent. -/
def parse_author (author_info : AuthorInfo) : Option String :=
  match author_info.lastName, author_info.foreName with
  | some last, some forename => some (pyJoin ", " [last, forename])
  | _, _ => none

/-- `parse_journal`: abbreviation always; with a `JournalIssue` block, joins
abbreviation and volume, and also issue and pages when `pagination` is truthy
and the `Issue` key is present.  `none` models a `KeyError` (missing
`ISOAbbreviation`, missing `Volume` under a `JournalIssue` block, or missing
`MedlinePgn` in a used pagination). -/
def parse_journal (journal_info : JournalInfo) (pagination : Option PaginationInfo) :
    Option String :=
  match journal_info.isoAbbreviation with
  | none => none
  | some abbr =>
    match journal_info.journalIssue with
    | none => some abbr
    | some issue =>
      if pagination.isSome && issue.issue.isSome then
        match issue.volume, issue.issue, pagination.bind PaginationInfo.medlinePgn with
        | some vol, some iss, some pgn => some (pyJoin ", " [abbr, vol, iss, pgn])
        | _, _, _ => none
      else
        match issue.volume with
        | some vol => some (pyJoin ", " [abbr, vol])
        | none => none

/-- The fields `Paper.__init__` computes, including the `yml` block, the
verbose `long_print` block, and the line printed during construction. -/
structure Paper where
  abstract : String
  first_author : String
  year : String
  title : String
  journal_info : String
  link : String
  trace : String
  yml : String
  long_print : String
deriving DecidableEq

/-- Lines 79-82 of `Paper.__init__`: fewer than 3 authors are all joined
with `', '` and closed with a period; otherwise only the first author is
parsed and `' et al.'` appended. -/
def author_display (authors : List AuthorInfo) : Option String :=
  if authors.length < 3 then
    (mapOption parse_author authors).map (fun names => pyJoin ", " names ++ ".")
  else
    match authors with
    | [] => none
    | a :: _ => (parse_author a).map (fun n => n ++ " et al.")

/-- Lines 84-90 of `Paper.__init__`: the year of `ArticleDate[0]` when the
list is non-empty (raising when that entry has no `Year`); otherwise
`Journal -> JournalIssue -> PubDate -> Year` with every `KeyError` caught
and turned into `''`.  The outer `none` is the `KeyError` on a missing
`ArticleDate` key itself. -/
def resolve_year (article_info : ArticleInfo) : Option String :=
  match article_info.articleDate with
  | none => none
  | some (d :: _) => d.year
  | some [] =>
    some (match article_info.journal with
          | some j =>
            match j.journalIssue with
            | some issue => issue.pubDateYear.getD ""
            | none => ""
          | none => "")

/-- `Paper.__init__`: `none` models any uncaught exception while parsing the
entry (a missing required field). -/
def mkPaper (pubmed_entry : PubmedEntry) : Option Paper :=
  match pubmed_entry.article with
  | none => none
  | some article_info =>
    match article_info.authorList with
    | none => none
    | some authors =>
      let abstract := article_info.abstract.getD ""
      match author_display authors with
      | none => none
      | some first_author =>
        match resolve_year article_info with
        | none => none
        | some year =>
          match article_info.articleTitle with
          | none => none
          | some title =>
            match article_info.journal with
            | none => none
            | some j =>
              match parse_journal j article_info.pagination with
              | none => none
              | some journal_info =>
                match article_info.eLocationID with
                | none => none
                | some elocs =>
                  let link :=
                    match elocs with
                    | [] => ""
                    | l :: _ => "https://doi.org/" ++ l
                  some
                    { abstract := abstract
                      first_author := first_author
                      year := year
                      title := title
                      journal_info := journal_info
                      link := link
                      trace := first_author ++ " " ++ title ++ " " ++ link
                        ++ " " ++ journal_info
                      yml := "- author: " ++ first_author ++ "\n  title: '"
                        ++ title ++ " " ++ journal_info ++ ".'\n  alt_link: '"
                        ++ link ++ "'\n  year: " ++ year ++ "\n\n"
                      long_print := "author: " ++ first_author ++ "\nyear: "
                        ++ year ++ "\ntitle: '" ++ title ++ " \n" ++ journal_info
                        ++ ".'\nabstract: '" ++ abstract ++ "'\nDOI_link: '"
                        ++ link ++ "'\n\n" }

/-! ## Persisted state and the orchestration functions -/

/-- The persisted state the script touches plus the lines it prints:
`idsFile` is `_data/recent_pubmed_ids.txt`, `papersFile` is
`_data/papers.yml`; `none` means the file does not exist. -/
structure RunState where
  idsFile : Option String
  papersFile : Option String
  log : List String
deriving DecidableEq

/-- A Python call either returns a value or propagates an exception. -/
inductive PyResult (α : Type) where
  | ok (val : α)
  | exn
deriving DecidableEq

/-- Line 139: `ids_new = [i for i in ids if i not in previous_ids]` —
the delta of candidate identifiers against the known set. -/
def ids_new (ids previous_ids : List String) : List String :=
  ids.filter (fun i => !(decide (i ∈ previous_ids)))

/-- Lines 130-137 of `fetch_new_papers`: read the identifier file and split
on commas; when it is absent (`IOError`), create it empty and use `[]`. -/
def read_previous_ids (st : RunState) : List String × RunState :=
  match st.idsFile with
  | some content => (pySplit content, st)
  | none => ([], { st with idsFile := some "" })

/-- `fetch_new_papers(ids, email, verbose)`.  `fetch_details` is the
black-box Entrez fetch; the returned value is the list the Python function
returns (`none` = the fall-through `return None` of the no-new-papers
branch), and `.exn` a propagated parse exception. -/
def fetch_new_papers (fetch_details : List String → List PubmedEntry)
    (ids : List String) (verbose : Bool) (st : RunState) :
    PyResult (Option (List String)) × RunState :=
  let pr := read_previous_ids st
  let previous_ids := pr.1
  let st1 := pr.2
  let new_ids := ids_new ids previous_ids
  let all_ids := new_ids ++ previous_ids
  if verbose then
    match mapOption mkPaper (fetch_details ids) with
    | none => (.exn, st1)
    | some papers => (.ok (some (papers.map Paper.long_print)), st1)
  else if new_ids.length ≠ 0 then
    match mapOption mkPaper (fetch_details new_ids) with
    | none => (.exn, st1)
    | some papers =>
      (.ok (some (papers.map Paper.yml)),
       { st1 with idsFile := some (pyJoin "," all_ids) })
  else
    (.ok none, { st1 with log := st1.log ++ ["No new papers found."] })

/-- `add_new_papers(new_papers)`: when the list is truthy, read the store,
then write the joined new blocks followed by the original text.  Reading a
missing store raises `IOError` (uncaught). -/
def add_new_papers (new_papers : List String) (st : RunState) :
    PyResult Unit × RunState :=
  if new_papers.isEmpty then (.ok (), st)
  else
    match st.papersFile with
    | none => (.exn, st)
    | some original_text =>
      (.ok (),
       { st with papersFile := some (pyJoin "" new_papers ++ original_text) })

/-- Lines 198-205 of `main`: read `papers.yml` (creating it empty when
absent, in which case `current_papers = []`); only its length is used. -/
def load_papers (st : RunState) : Nat × RunState :=
  match st.papersFile with
  | some content => (content.length, st)
  | none => (0, { st with papersFile := some "" })

/-- Lines 210-213 of `main`: the `retmax` passed to the search — `args.max`
when the store is non-empty, else `args.max if args.max else 100`. -/
def search_retmax (current_papers_length : Nat) (max : Int) : Int :=
  if current_papers_length ≠ 0 then max
  else if max ≠ 0 then max else 100

/-- The command-line arguments (`get_args`). -/
structure Args where
  email : String
  author : String
  max : Int
  verbose : Bool
  do_not_populate : Bool
deriving DecidableEq

/-- Lines 217-220 of `main`: the verbose branch — fetch-and-parse every
candidate id and print each block.  Iterating a `None` return would raise a
`TypeError`, hence `.exn` in that (unreachable for non-empty `ids`) case. -/
def run_verbose (fetch_details : List String → List PubmedEntry)
    (ids : List String) (st : RunState) : PyResult Unit × RunState :=
  match fetch_new_papers fetch_details ids true st with
  | (.exn, st2) => (.exn, st2)
  | (.ok none, st2) => (.exn, st2)
  | (.ok (some papers), st2) => (.ok (), { st2 with log := st2.log ++ papers })

/-- Lines 221-225 of `main`: the ingestion branch — fetch the new papers
and, when the result is not `None`, prepend them to the store and report
the count. -/
def run_ingest (fetch_details : List String → List PubmedEntry)
    (ids : List String) (st : RunState) : PyResult Unit × RunState :=
  match fetch_new_papers fetch_details ids false st with
  | (.exn, st2) => (.exn, st2)
  | (.ok none, st2) => (.ok (), st2)
  | (.ok (some papers), st2) =>
    match add_new_papers papers st2 with
    | (.exn, st3) => (.exn, st3)
    | (.ok _, st3) =>
      (.ok (),
       { st3 with log := st3.log ++
          ["Added " ++ toString papers.length ++ " new papers."] })

/-- `main()`: `search` is the black-box Entrez search (query and `retmax` to
ordered id list), `fetch_details` the black-box detail fetch. -/
def main (search : String → Int → List String)
    (fetch_details : List String → List PubmedEntry)
    (args : Args) (st : RunState) : PyResult Unit × RunState :=
  let author := args.author ++ "[Author]"
  let lp := load_papers st
  let st1 := lp.2
  let ids := search author (search_retmax lp.1 args.max)
  if ids.length = 0 then (.ok (), st1)
  else
    match (if args.verbose then run_verbose fetch_details ids st1
           else (.ok (), st1)) with
    | (.exn, st2) => (.exn, st2)
    | (.ok _, st2) =>
      if !args.do_not_populate then run_ingest fetch_details ids st2
      else (.ok (), st2)

/-- An all-absent article record, for building small concrete entries. -/
def articleNone : ArticleInfo :=
  ⟨none, none, none, none, none, none, none⟩

/-- Lexicographic order on character lists, used to compare year strings. -/
def charListLt : List Char → List Char → Bool
  | [], [] => false
  | [], _ :: _ => true
  | _ :: _, [] => false
  | a :: as, b :: bs =>
    if a < b then true else if b < a then false else charListLt as bs

/-- The spec's reading of year resolution, for comparison with the code: the
year of the chronologically earliest explicit article date (the least `Year`
string; on the 4-digit years of this data, string order is chronological
order). -/
def earliest_article_year (dates : List ArticleDateInfo) : Option String :=
  match dates.map (fun d => d.year.getD "") with
  | [] => none
  | y :: ys =>
    some (ys.foldl (fun a b => if charListLt b.data a.data then b else a) y)

/-! ## Auxiliary string lemmas -/

theorem empty_append_str (s : String) : "" ++ s = s :=
  String.ext (by simp)

theorem pyJoin_cons (sep a b : String) (rest : List String) :
    pyJoin sep (a :: b :: rest) = a ++ sep ++ pyJoin sep (b :: rest) := by
  apply String.ext
  simp only [pyJoin, String.data_append]
  simp [pyJoinCharList, List.append_assoc]

/-! ## Behaviour of the ingestion pipeline -/

theorem ids_new_nil_prev (ids : List String) : ids_new ids [] = ids := by
  simp [ids_new]

theorem mem_new_append_prev (ids prev : List String) (x : String) :
    x ∈ ids_new ids prev ++ prev ↔ (x ∈ ids ∨ x ∈ prev) := by
  simp only [List.mem_append, ids_new, List.mem_filter, Bool.not_eq_true',
    decide_eq_false_iff_not]
  by_cases hx : x ∈ prev <;> simp [hx]

theorem read_previous_ids_some (st : RunState) (c : String)
    (h : st.idsFile = some c) : read_previous_ids st = (pySplit c, st) := by
  simp [read_previous_ids, h]

theorem read_previous_ids_none (st : RunState) (h : st.idsFile = none) :
    read_previous_ids st = ([], { st with idsFile := some "" }) := by
  simp [read_previous_ids, h]

theorem load_papers_some (st : RunState) (c : String)
    (h : st.papersFile = some c) : load_papers st = (c.length, st) := by
  simp [load_papers, h]

theorem load_papers_none (st : RunState) (h : st.papersFile = none) :
    load_papers st = (0, { st with papersFile := some "" }) := by
  simp [load_papers, h]

theorem fetch_nv_no_new (f : List String → List PubmedEntry)
    (ids : List String) (st : RunState)
    (h : ids_new ids (read_previous_ids st).1 = []) :
    fetch_new_papers f ids false st =
      (.ok none, { (read_previous_ids st).2 with
        log := (read_previous_ids st).2.log ++ ["No new papers found."] }) := by
  simp [fetch_new_papers, h]

theorem fetch_nv_exn (f : List String → List PubmedEntry)
    (ids : List String) (st : RunState)
    (hne : ids_new ids (read_previous_ids st).1 ≠ [])
    (hm : mapOption mkPaper (f (ids_new ids (read_previous_ids st).1)) = none) :
    fetch_new_papers f ids false st = (.exn, (read_previous_ids st).2) := by
  simp [fetch_new_papers, hm, List.length_eq_zero, hne]

theorem fetch_nv_ok (f : List String → List PubmedEntry)
    (ids : List String) (st : RunState) (papers : List Paper)
    (hne : ids_new ids (read_previous_ids st).1 ≠ [])
    (hm : mapOption mkPaper (f (ids_new ids (read_previous_ids st).1)) =
      some papers) :
    fetch_new_papers f ids false st =
      (.ok (some (papers.map Paper.yml)),
       { (read_previous_ids st).2 with idsFile := some (pyJoin ","
          (ids_new ids (read_previous_ids st).1 ++ (read_previous_ids st).1)) }) := by
  simp [fetch_new_papers, hm, List.length_eq_zero, hne]

theorem fetch_v_exn (f : List String → List PubmedEntry)
    (ids : List String) (st : RunState)
    (hm : mapOption mkPaper (f ids) = none) :
    fetch_new_papers f ids true st = (.exn, (read_previous_ids st).2) := by
  simp [fetch_new_papers, hm]

theorem fetch_v_ok (f : List String → List PubmedEntry)
    (ids : List String) (st : RunState) (papers : List Paper)
    (hm : mapOption mkPaper (f ids) = some papers) :
    fetch_new_papers f ids true st =
      (.ok (some (papers.map Paper.long_print)), (read_previous_ids st).2) := by
  simp [fetch_new_papers, hm]

/-! ## The claims -/

/-- C3: for every finite list of candidate identifiers and every set of
known identifiers, the computed delta contains exactly those candidates not
in the known set (same membership and same multiplicity), in the same
relative order as the candidate list (a sublist), including the empty
intersection (all candidates returned) and full overlap (empty delta)
cases. -/
theorem C3_delta_correct (candidates known : List String) :
    List.Sublist (ids_new candidates known) candidates ∧
    (∀ x, x ∈ ids_new candidates known ↔ (x ∈ candidates ∧ x ∉ known)) ∧
    (∀ x, (ids_new candidates known).count x =
      if x ∈ known then 0 else candidates.count x) ∧
    ((∀ x ∈ candidates, x ∉ known) → ids_new candidates known = candidates) ∧
    ((∀ x ∈ candidates, x ∈ known) → ids_new candidates known = []) := by
  refine ⟨List.filter_sublist _, ?_, ?_, ?_, ?_⟩
  · intro x
    simp [ids_new, List.mem_filter]
  · intro x
    by_cases hx : x ∈ known
    · rw [if_pos hx, List.count_eq_zero]
      simp [ids_new, List.mem_filter, hx]
    · rw [if_neg hx, ids_new, List.count_filter]
      simp [hx]
  · intro h
    apply List.filter_eq_self.mpr
    intro a ha
    simp [h a ha]
  · intro h
    apply List.filter_eq_nil_iff.mpr
    intro a ha
    simp [h a ha]

/-- C5: for every existing store content `C` and rendered blocks, the
prepend operation succeeds and persists exactly the concatenation of the
new blocks before the original content, which is preserved byte-for-byte;
the identifier file and the printed log are untouched. -/
theorem C5_prepend (new_papers : List String) (C : String) (st : RunState)
    (h : st.papersFile = some C) :
    (add_new_papers new_papers st).1 = .ok () ∧
    (add_new_papers new_papers st).2.papersFile =
      some (pyJoin "" new_papers ++ C) ∧
    (add_new_papers new_papers st).2.idsFile = st.idsFile ∧
    (add_new_papers new_papers st).2.log = st.log := by
  unfold add_new_papers
  by_cases he : new_papers.isEmpty = true
  · rw [if_pos he]
    rw [List.isEmpty_iff.mp he, pyJoin_nil, empty_append_str, h]
    exact ⟨rfl, rfl, rfl, rfl⟩
  · rw [if_neg he, h]
    exact ⟨rfl, rfl, rfl, rfl⟩

/-- C5 witness: the theorem applied at a concrete store and block list. -/
theorem C5_prepend_witness :
    (add_new_papers ["B1", "B2"] ⟨some "1,2", some "C0", []⟩).1 = .ok () ∧
    (add_new_papers ["B1", "B2"] ⟨some "1,2", some "C0", []⟩).2.papersFile =
      some (pyJoin "" ["B1", "B2"] ++ "C0") ∧
    (add_new_papers ["B1", "B2"] ⟨some "1,2", some "C0", []⟩).2.idsFile =
      (⟨some "1,2", some "C0", []⟩ : RunState).idsFile ∧
    (add_new_papers ["B1", "B2"] ⟨some "1,2", some "C0", []⟩).2.log =
      (⟨some "1,2", some "C0", []⟩ : RunState).log :=
  C5_prepend ["B1", "B2"] "C0" ⟨some "1,2", some "C0", []⟩ rfl

/-- C6: an author list of length 0, 1 or 2 is rendered by joining every
author as `Last, First` with `', '` and a final period; a list of length 3
or more is rendered as the first author followed by `' et al.'` (whatever
the remaining entries hold). -/
theorem C6_author_display :
    (author_display [] = some ".") ∧
    (∀ l f, author_display [⟨some l, some f⟩] = some (l ++ ", " ++ f ++ ".")) ∧
    (∀ l1 f1 l2 f2,
      author_display [⟨some l1, some f1⟩, ⟨some l2, some f2⟩] =
        some (l1 ++ ", " ++ f1 ++ ", " ++ l2 ++ ", " ++ f2 ++ ".")) ∧
    (∀ l f rest, 2 ≤ rest.length →
      author_display (⟨some l, some f⟩ :: rest) =
        some (l ++ ", " ++ f ++ " et al.")) := by
  refine ⟨by decide, ?_, ?_, ?_⟩
  · intro l f
    simp [author_display, mapOption, parse_author, pyJoin_single, pyJoin_pair]
  · intro l1 f1 l2 f2
    simp [author_display, mapOption, parse_author, pyJoin_single, pyJoin_pair,
      pyJoin_cons, String.append_assoc]
  · intro l f rest h
    have hlen : ¬ ((⟨some l, some f⟩ :: rest).length < 3) := by
      simp only [List.length_cons]
      omega
    unfold author_display
    rw [if_neg hlen]
    simp [parse_author, pyJoin_pair, String.append_assoc]

/-- C7 counterexample: a record carrying a journal abbreviation whose
`JournalIssue` block lacks `Volume` makes `parse_journal` raise a
`KeyError` (`none`), so the rendering is not total on missing volume. -/
theorem C7_counterexample :
    (JournalInfo.mk (some "Nat Neurosci")
        (some ⟨none, none, none⟩)).isoAbbreviation = some "Nat Neurosci" ∧
    parse_journal
      (JournalInfo.mk (some "Nat Neurosci") (some ⟨none, none, none⟩)) none =
      none := by
  exact ⟨rfl, rfl⟩

/-- C7 amended: journal-issue rendering never raises on a missing `Issue`
field or an absent pagination, degrades additively (abbreviation alone;
abbreviation-volume; abbreviation-volume-issue-pages), but requires
`Volume` whenever a `JournalIssue` block exists: it raises (`none`) when
that block lacks `Volume`. -/
theorem C7_journal_rendering :
    (∀ ab pag, parse_journal ⟨some ab, none⟩ pag = some ab) ∧
    (∀ ab vol iss py pg,
      parse_journal ⟨some ab, some ⟨some vol, some iss, py⟩⟩ (some ⟨some pg⟩) =
        some (ab ++ ", " ++ vol ++ ", " ++ iss ++ ", " ++ pg)) ∧
    (∀ ab vol py pag,
      parse_journal ⟨some ab, some ⟨some vol, none, py⟩⟩ pag =
        some (ab ++ ", " ++ vol)) ∧
    (∀ ab vol iss py,
      parse_journal ⟨some ab, some ⟨some vol, iss, py⟩⟩ none =
        some (ab ++ ", " ++ vol)) ∧
    (∀ ab iss py pag,
      parse_journal ⟨some ab, some ⟨none, iss, py⟩⟩ pag = none) := by
  refine ⟨?_, ?_, ?_, ?_, ?_⟩
  · intro ab pag
    rfl
  · intro ab vol iss py pg
    simp [parse_journal, pyJoin_cons, pyJoin_single, pyJoin_pair,
      String.append_assoc]
  · intro ab vol py pag
    simp [parse_journal, pyJoin_pair]
  · intro ab vol iss py
    simp [parse_journal, pyJoin_pair]
  · intro ab iss py pag
    cases pag <;> cases iss <;> simp [parse_journal]

/-- C8 counterexample: the code takes the year of the first-listed article
date, not of the earliest one (here the first is 2020 but the earliest is
1999), and it raises (`none`) rather than never raising when the first
article date lacks a `Year` field. -/
theorem C8_counterexample :
    (resolve_year { articleNone with
        articleDate := some [⟨some "2020"⟩, ⟨some "1999"⟩] } = some "2020" ∧
     earliest_article_year [⟨some "2020"⟩, ⟨some "1999"⟩] = some "1999" ∧
     (some "2020" : Option String) ≠ some "1999") ∧
    resolve_year { articleNone with articleDate := some [⟨none⟩] } = none := by
  refine ⟨⟨rfl, by decide, by decide⟩, rfl⟩

/-- C8 amended: the year is the `Year` of the first-listed article date
when the article-date list is non-empty (raising when that entry lacks a
`Year`); otherwise the journal issue's `PubDate` year when the whole
`Journal -> JournalIssue -> PubDate -> Year` chain is present; otherwise the
empty string — and the fallback branch itself never raises. -/
theorem C8_year_resolution (ai : ArticleInfo) :
    (∀ d rest, ai.articleDate = some (d :: rest) → resolve_year ai = d.year) ∧
    (∀ j iss y, ai.articleDate = some [] → ai.journal = some j →
      j.journalIssue = some iss → iss.pubDateYear = some y →
      resolve_year ai = some y) ∧
    (ai.articleDate = some [] → ai.journal = none → resolve_year ai = some "") ∧
    (∀ j, ai.articleDate = some [] → ai.journal = some j →
      j.journalIssue = none → resolve_year ai = some "") ∧
    (∀ j iss, ai.articleDate = some [] → ai.journal = some j →
      j.journalIssue = some iss → iss.pubDateYear = none →
      resolve_year ai = some "") ∧
    (ai.articleDate = some [] → (resolve_year ai).isSome = true) := by
  refine ⟨?_, ?_, ?_, ?_, ?_, ?_⟩
  · intro d rest hd
    simp [resolve_year, hd]
  · intro j iss y h1 h2 h3 h4
    simp [resolve_year, h1, h2, h3, h4]
  · intro h1 h2
    simp [resolve_year, h1, h2]
  · intro j h1 h2 h3
    simp [resolve_year, h1, h2, h3]
  · intro j iss h1 h2 h3 h4
    simp [resolve_year, h1, h2, h3, h4]
  · intro h1
    simp [resolve_year, h1]

/-- A well-formed Pubmed entry, used to run the pipeline concretely. -/
def entryGood : PubmedEntry :=
  ⟨some { authorList := some [⟨some "Smith", some "Jo"⟩]
          abstract := some "An abstract"
          articleDate := some [⟨some "2021"⟩]
          journal := some ⟨some "J Test", some ⟨some "5", some "2", some "2021"⟩⟩
          articleTitle := some "A title"
          pagination := some ⟨some "1-10"⟩
          eLocationID := some ["10.1/x"] }⟩

/-- A malformed entry: the required `AuthorList` key is absent, so
`Paper.__init__` raises on it. -/
def entryBad : PubmedEntry :=
  ⟨some { articleNone with articleTitle := some "Bad" }⟩

/-- C4: whenever a non-verbose `fetch_new_papers` pass succeeds with papers
(equivalently, with a non-empty delta), the identifier-set file is
overwritten wholesale with the comma-join of new-then-previous identifiers,
whose members are exactly the union of the candidate and previously-known
identifiers; a file absent at load time is treated as the empty set of
previous identifiers. -/
theorem C4_ids_file_overwrite (f : List String → List PubmedEntry)
    (ids : List String) (st : RunState) (ps : List String)
    (h : (fetch_new_papers f ids false st).1 = .ok (some ps)) :
    (∀ c, st.idsFile = some c →
      ids_new ids (pySplit c) ≠ [] ∧
      (fetch_new_papers f ids false st).2.idsFile =
        some (pyJoin "," (ids_new ids (pySplit c) ++ pySplit c)) ∧
      (∀ x, x ∈ ids_new ids (pySplit c) ++ pySplit c ↔
        (x ∈ ids ∨ x ∈ pySplit c))) ∧
    (st.idsFile = none →
      ids_new ids [] = ids ∧
      (fetch_new_papers f ids false st).2.idsFile =
        some (pyJoin "," (ids_new ids [] ++ []))) := by
  constructor
  · intro c hc
    have hr := read_previous_ids_some st c hc
    by_cases hnew : ids_new ids (pySplit c) = []
    · rw [fetch_nv_no_new f ids st (by rw [hr]; exact hnew)] at h
      exact absurd h (by simp)
    · rcases hm : mapOption mkPaper (f (ids_new ids (pySplit c))) with - | papers
      · rw [fetch_nv_exn f ids st (by rw [hr]; exact hnew)
          (by rw [hr]; exact hm)] at h
        exact absurd h (by simp)
      · rw [fetch_nv_ok f ids st papers (by rw [hr]; exact hnew)
          (by rw [hr]; exact hm), hr]
        exact ⟨hnew, rfl, fun x => mem_new_append_prev ids (pySplit c) x⟩
  · intro hn
    have hr := read_previous_ids_none st hn
    have hnil := ids_new_nil_prev ids
    by_cases hnew : ids_new ids ([] : List String) = []
    · rw [fetch_nv_no_new f ids st (by rw [hr]; exact hnew)] at h
      exact absurd h (by simp)
    · rcases hm : mapOption mkPaper (f (ids_new ids [])) with - | papers
      · rw [fetch_nv_exn f ids st (by rw [hr]; exact hnew)
          (by rw [hr]; exact hm)] at h
        exact absurd h (by simp)
      · rw [fetch_nv_ok f ids st papers (by rw [hr]; exact hnew)
          (by rw [hr]; exact hm), hr]
        exact ⟨hnil, rfl⟩

/-- C4 witness: a concrete successful pass with prior content `"0"` and
candidate list `["1"]`. -/
theorem C4_ids_file_overwrite_witness :
    ids_new ["1"] (pySplit "0") ≠ [] ∧
    (fetch_new_papers (fun _ => [entryGood]) ["1"] false
        ⟨some "0", some "C", []⟩).2.idsFile =
      some (pyJoin "," (ids_new ["1"] (pySplit "0") ++ pySplit "0")) ∧
    (∀ x, x ∈ ids_new ["1"] (pySplit "0") ++ pySplit "0" ↔
      (x ∈ ["1"] ∨ x ∈ pySplit "0")) :=
  (C4_ids_file_overwrite (fun _ => [entryGood]) ["1"]
    ⟨some "0", some "C", []⟩ _ rfl).1 "0" rfl

/-- C1: the script's own docstring says it saves to `papers.yml` unless
`--verbose`, but an invocation with verbose enabled (and without `-d`)
still runs the ingestion branch — here it rewrites the identifier file
from `""` to `"1,"` and prepends to the store — so verbose mode alone does
not leave the persisted files byte-identical. -/
theorem C1_verbose_still_writes :
    (⟨"e", "A", 20, true, false⟩ : Args).verbose = true ∧
    (⟨some "", some "X", []⟩ : RunState).idsFile = some "" ∧
    (main (fun _ _ => ["1"]) (fun _ => [entryGood]) ⟨"e", "A", 20, true, false⟩
        ⟨some "", some "X", []⟩).2.idsFile ≠ some "" ∧
    (main (fun _ _ => ["1"]) (fun _ => [entryGood]) ⟨"e", "A", 20, true, false⟩
        ⟨some "", some "X", []⟩).2.papersFile ≠ some "X" := by
  exact ⟨rfl, rfl, by decide, by decide⟩

/-- C1 amended: the verbose flag alone does not bypass the ingestion
branch; only together with the do-not-populate flag is the run free of
writes, and even then an absent file would be created empty.  With both
flags set and both files present, every invocation leaves the identifier
file and the citation store exactly as they were. -/
theorem C1_verbose_read_only (search : String → Int → List String)
    (f : List String → List PubmedEntry) (args : Args) (st : RunState)
    (ci cp : String)
    (hv : args.verbose = true) (hd : args.do_not_populate = true)
    (hi : st.idsFile = some ci) (hp : st.papersFile = some cp) :
    (main search f args st).2.idsFile = some ci ∧
    (main search f args st).2.papersFile = some cp := by
  unfold main
  rw [load_papers_some st cp hp, hv, hd]
  by_cases hz : (search (args.author ++ "[Author]")
      (search_retmax cp.length args.max)).length = 0
  · simp [hz, hi, hp]
  · rw [if_neg hz]
    simp only [if_true]
    rcases hm : mapOption mkPaper
        (f (search (args.author ++ "[Author]")
          (search_retmax cp.length args.max))) with - | papers
    · rw [run_verbose, fetch_v_exn f _ st hm, read_previous_ids_some st ci hi]
      exact ⟨hi, hp⟩
    · rw [run_verbose, fetch_v_ok f _ st papers hm,
        read_previous_ids_some st ci hi]
      exact ⟨hi, hp⟩

/-- C1 witness: the amended theorem at a concrete verbose dry run. -/
theorem C1_verbose_read_only_witness :
    (main (fun _ _ => ["1"]) (fun _ => [entryGood]) ⟨"e", "A", 20, true, true⟩
        ⟨some "5", some "X", []⟩).2.idsFile = some "5" ∧
    (main (fun _ _ => ["1"]) (fun _ => [entryGood]) ⟨"e", "A", 20, true, true⟩
        ⟨some "5", some "X", []⟩).2.papersFile = some "X" :=
  C1_verbose_read_only (fun _ _ => ["1"]) (fun _ => [entryGood])
    ⟨"e", "A", 20, true, true⟩ ⟨some "5", some "X", []⟩ "5" "X" rfl rfl rfl rfl

/-- C10 counterexample: a parse error does abort before the overwrite and
the prepend, but the pass is not fully write-free — when the identifier
file is absent at load time it is created empty before parsing, so the
identifier-set file is not left exactly as it was. -/
theorem C10_counterexample :
    (⟨none, some "KEEP", []⟩ : RunState).idsFile = none ∧
    (main (fun _ _ => ["9"]) (fun _ => [entryBad]) ⟨"e", "A", 20, false, false⟩
        ⟨none, some "KEEP", []⟩).1 = .exn ∧
    (main (fun _ _ => ["9"]) (fun _ => [entryBad]) ⟨"e", "A", 20, false, false⟩
        ⟨none, some "KEEP", []⟩).2.idsFile = some "" := by
  exact ⟨rfl, rfl, rfl⟩

/-- Shorthand for the id list the orchestrator passes downstream. -/
def search_ids (search : String → Int → List String) (args : Args)
    (st : RunState) : List String :=
  search (args.author ++ "[Author]") (search_retmax (load_papers st).1 args.max)

/-- An empty search result short-circuits the run. -/
theorem main_zero_eq (search : String → Int → List String)
    (f : List String → List PubmedEntry) (args : Args) (st : RunState)
    (hz : (search_ids search args st).length = 0) :
    main search f args st = (.ok (), (load_papers st).2) := by
  simp only [search_ids] at hz
  simp only [main]
  rw [if_pos hz]

/-- With a non-empty search result and neither flag set, `main` is exactly
the ingestion branch. -/
theorem main_nv_eq (search : String → Int → List String)
    (f : List String → List PubmedEntry) (args : Args) (st : RunState)
    (hv : args.verbose = false) (hd : args.do_not_populate = false)
    (hz : (search_ids search args st).length ≠ 0) :
    main search f args st =
      run_ingest f (search_ids search args st) (load_papers st).2 := by
  simp only [main, search_ids, hv, hd] at *
  rw [if_neg hz]
  simp

/-- If the ingestion branch ends in an exception, neither file was
rewritten (given both existed at entry). -/
theorem run_ingest_exn_files (f : List String → List PubmedEntry)
    (ids : List String) (st st2 : RunState) (ci cp : String)
    (hi : st.idsFile = some ci) (hp : st.papersFile = some cp)
    (h : run_ingest f ids st = (.exn, st2)) :
    st2.idsFile = some ci ∧ st2.papersFile = some cp := by
  have hr := read_previous_ids_some st ci hi
  simp only [run_ingest] at h
  by_cases hnew : ids_new ids (pySplit ci) = []
  · rw [fetch_nv_no_new f ids st (by rw [hr]; exact hnew)] at h
    exact absurd h (by simp)
  · rcases hm : mapOption mkPaper (f (ids_new ids (pySplit ci))) with - | papers
    · rw [fetch_nv_exn f ids st (by rw [hr]; exact hnew)
        (by rw [hr]; exact hm), hr] at h
      have h2 : st = st2 := congrArg Prod.snd h
      rw [← h2]
      exact ⟨hi, hp⟩
    · rw [fetch_nv_ok f ids st papers (by rw [hr]; exact hnew)
        (by rw [hr]; exact hm), hr] at h
      by_cases hemp : (papers.map Paper.yml).isEmpty = true
      · simp only [add_new_papers, if_pos hemp] at h
        exact absurd h (by simp)
      · simp only [add_new_papers, if_neg hemp, hp] at h
        exact absurd h (by simp)

/-- C10 amended: whole-batch atomicity holds for the file contents — the
whole batch is parsed before the identifier-set file is overwritten and
before the store is prepended, so if both files exist when the ingestion
pass starts, any run that ends in a parse exception leaves both exactly as
they were; an absent identifier-set file is, however, created empty during
load even on a failing pass. -/
theorem C10_parse_abort (search : String → Int → List String)
    (f : List String → List PubmedEntry) (args : Args) (st st2 : RunState)
    (ci cp : String)
    (hv : args.verbose = false) (hd : args.do_not_populate = false)
    (hi : st.idsFile = some ci) (hp : st.papersFile = some cp)
    (h : main search f args st = (.exn, st2)) :
    st2.idsFile = some ci ∧ st2.papersFile = some cp := by
  by_cases hz : (search_ids search args st).length = 0
  · rw [main_zero_eq search f args st hz] at h
    exact absurd h (by simp)
  · rw [main_nv_eq search f args st hv hd hz,
      load_papers_some st cp hp] at h
    exact run_ingest_exn_files f (search_ids search args st) st st2 ci cp hi hp h

/-- C10 witness: a concrete failing pass over a malformed record, with both
files present, ends in the exception and leaves both files as they were. -/
theorem C10_parse_abort_witness :
    ((⟨some "5", some "K", []⟩ : RunState)).idsFile = some "5" ∧
    ((⟨some "5", some "K", []⟩ : RunState)).papersFile = some "K" :=
  C10_parse_abort (fun _ _ => ["9"]) (fun _ => [entryBad])
    ⟨"e", "A", 20, false, false⟩ ⟨some "5", some "K", []⟩
    ⟨some "5", some "K", []⟩ "5" "K" rfl rfl rfl rfl rfl
/-- After loading the store, `papers.yml` exists (it is created when
absent). -/
theorem load_papers_isSome (st : RunState) :
    (load_papers st).2.papersFile.isSome = true := by
  rcases h : st.papersFile with - | c
  · rw [load_papers_none st h]
    rfl
  · rw [load_papers_some st c h, h]
    rfl

/-- Membership in the split of the freshly written identifier record. -/
theorem mem_pySplit_pyJoin (new prev : List String) (i : String)
    (hne : new ≠ []) (hcfn : ∀ x ∈ new, ',' ∉ x.data)
    (hcfp : ∀ x ∈ prev, ',' ∉ x.data) (hi : i ∈ new ++ prev) :
    i ∈ pySplit (pyJoin "," (new ++ prev)) := by
  rw [pySplit_pyJoin (new ++ prev)]
  · exact hi
  · intro hnil
    rcases List.append_eq_nil.mp hnil with ⟨h1, -⟩
    exact hne h1
  · intro x hx
    rcases List.mem_append.mp hx with hmem | hmem
    · exact hcfn x hmem
    · exact hcfp x hmem

/-- A successful ingestion branch leaves an identifier file whose record,
split on commas, contains every candidate identifier, and a citation store
that still exists. -/
theorem run_ingest_ok_post (f : List String → List PubmedEntry)
    (I : List String) (st st1 : RunState) (u : Unit)
    (hI : I ≠ []) (hcf : ∀ i ∈ I, ',' ∉ i.data)
    (hpf : st.papersFile.isSome = true)
    (h : run_ingest f I st = (.ok u, st1)) :
    ∃ c, st1.idsFile = some c ∧ (∀ i ∈ I, i ∈ pySplit c) ∧
      st1.papersFile.isSome = true := by
  obtain ⟨cp, hcp⟩ := Option.isSome_iff_exists.mp hpf
  simp only [run_ingest] at h
  rcases hif : st.idsFile with - | c0
  · -- the identifier file is absent: previous ids are [] and the whole
    -- candidate list is new
    have hr := read_previous_ids_none st hif
    have hnew : ids_new I ([] : List String) ≠ [] := by
      rw [ids_new_nil_prev]
      exact hI
    rcases hm : mapOption mkPaper (f (ids_new I [])) with - | papers
    · rw [fetch_nv_exn f I st (by rw [hr]; exact hnew)
        (by rw [hr]; exact hm)] at h
      exact absurd h (by simp)
    · rw [fetch_nv_ok f I st papers (by rw [hr]; exact hnew)
        (by rw [hr]; exact hm), hr] at h
      simp only at h
      refine ⟨pyJoin "," (ids_new I [] ++ []), ?_⟩
      have hmem : ∀ i ∈ I, i ∈ pySplit (pyJoin "," (ids_new I [] ++ [])) := by
        intro i hi
        refine mem_pySplit_pyJoin _ _ i hnew ?_ (by simp) ?_
        · intro x hx
          exact hcf x (List.mem_filter.mp hx).1
        · rw [ids_new_nil_prev]
          simpa using hi
      by_cases hemp : (papers.map Paper.yml).isEmpty = true
      · simp only [add_new_papers, if_pos hemp] at h
        have h2 := congrArg Prod.snd h
        simp only at h2
        rw [← h2]
        exact ⟨rfl, hmem, by simp [hcp]⟩
      · simp only [add_new_papers, if_neg hemp, hcp] at h
        have h2 := congrArg Prod.snd h
        simp only at h2
        rw [← h2]
        exact ⟨rfl, hmem, rfl⟩
  · -- the identifier file exists with content c0
    have hr := read_previous_ids_some st c0 hif
    by_cases hnew : ids_new I (pySplit c0) = []
    · -- empty delta: nothing is written and every candidate was known
      rw [fetch_nv_no_new f I st (by rw [hr]; exact hnew), hr] at h
      have h2 := congrArg Prod.snd h
      simp only at h2
      rw [← h2]
      refine ⟨c0, hif, ?_, by simp [hcp]⟩
      intro i hi
      by_contra hmem
      have : i ∈ ids_new I (pySplit c0) := by
        simp [ids_new, List.mem_filter, hi, hmem]
      rw [hnew] at this
      simp at this
    · rcases hm : mapOption mkPaper (f (ids_new I (pySplit c0))) with - | papers
      · rw [fetch_nv_exn f I st (by rw [hr]; exact hnew)
          (by rw [hr]; exact hm)] at h
        exact absurd h (by simp)
      · rw [fetch_nv_ok f I st papers (by rw [hr]; exact hnew)
          (by rw [hr]; exact hm), hr] at h
        simp only at h
        refine ⟨pyJoin "," (ids_new I (pySplit c0) ++ pySplit c0), ?_⟩
        have hmem : ∀ i ∈ I,
            i ∈ pySplit (pyJoin "," (ids_new I (pySplit c0) ++ pySplit c0)) := by
          intro i hi
          refine mem_pySplit_pyJoin _ _ i hnew ?_ (pySplit_comma_free c0) ?_
          · intro x hx
            exact hcf x (List.mem_filter.mp hx).1
          · exact (mem_new_append_prev I (pySplit c0) i).mpr (Or.inl hi)
        by_cases hemp : (papers.map Paper.yml).isEmpty = true
        · simp only [add_new_papers, if_pos hemp] at h
          have h2 := congrArg Prod.snd h
          simp only at h2
          rw [← h2]
          exact ⟨rfl, hmem, by simp [hcp]⟩
        · simp only [add_new_papers, if_neg hemp, hcp] at h
          have h2 := congrArg Prod.snd h
          simp only at h2
          rw [← h2]
          exact ⟨rfl, hmem, rfl⟩

/-- C2: ingestion is idempotent — after a successful full ingestion pass
(no verbose, no suppress-write), a second pass in which the upstream search
returns the same (non-empty, comma-free) identifiers performs no detail
fetch (the outcome is the same for every fetch collaborator), performs no
file writes (the result state keeps the first pass's identifier file and
citation store), and signals the empty delta with the
"No new papers found." message. -/
theorem C2_idempotent (search : String → Int → List String)
    (f : List String → List PubmedEntry) (args : Args)
    (st0 st1 : RunState) (u : Unit) (I : List String)
    (hs : ∀ q m, search q m = I) (hI : I ≠ [])
    (hcf : ∀ i ∈ I, ',' ∉ i.data)
    (hv : args.verbose = false) (hd : args.do_not_populate = false)
    (h1 : main search f args st0 = (.ok u, st1)) :
    ∀ f2, main search f2 args st1 =
      (.ok (), { st1 with log := st1.log ++ ["No new papers found."] }) := by
  intro f2
  have hsi : ∀ st : RunState, search_ids search args st = I := fun st => hs _ _
  have hlen : ∀ st : RunState, (search_ids search args st).length ≠ 0 := by
    intro st hlen0
    rw [hsi st] at hlen0
    exact hI (List.length_eq_zero.mp hlen0)
  rw [main_nv_eq search f args st0 hv hd (hlen st0), hsi st0] at h1
  obtain ⟨c, hc, hsub, hps⟩ := run_ingest_ok_post f I (load_papers st0).2 st1 u
    hI hcf (load_papers_isSome st0) h1
  obtain ⟨p1, hp1⟩ := Option.isSome_iff_exists.mp hps
  rw [main_nv_eq search f2 args st1 hv hd (hlen st1), hsi st1,
    load_papers_some st1 p1 hp1]
  have hnew2 : ids_new I (pySplit c) = [] := by
    apply List.filter_eq_nil_iff.mpr
    intro a ha
    simp [hsub a ha]
  simp only [run_ingest]
  rw [fetch_nv_no_new f2 I st1 (by rw [read_previous_ids_some st1 c hc]; exact hnew2),
    read_previous_ids_some st1 c hc]

/-- C2 witness: a concrete first pass from no prior state, then the second
pass with the same upstream identifier and a fetch collaborator that is
never consulted. -/
theorem C2_idempotent_witness :
    main (fun _ _ => ["7"]) (fun _ => [])
        ⟨"e", "A", 20, false, false⟩
        ((main (fun _ _ => ["7"]) (fun _ => [entryGood])
          ⟨"e", "A", 20, false, false⟩ ⟨none, none, []⟩).2) =
      (.ok (), { (main (fun _ _ => ["7"]) (fun _ => [entryGood])
          ⟨"e", "A", 20, false, false⟩ ⟨none, none, []⟩).2 with
        log := (main (fun _ _ => ["7"]) (fun _ => [entryGood])
          ⟨"e", "A", 20, false, false⟩ ⟨none, none, []⟩).2.log ++
          ["No new papers found."] }) :=
  C2_idempotent (fun _ _ => ["7"]) (fun _ => [entryGood])
    ⟨"e", "A", 20, false, false⟩ ⟨none, none, []⟩
    ((main (fun _ _ => ["7"]) (fun _ => [entryGood])
      ⟨"e", "A", 20, false, false⟩ ⟨none, none, []⟩).2) () ["7"]
    (fun _ _ => rfl) (by decide) (by decide) rfl rfl rfl (fun _ => [])

/-- C9: the bootstrap rule is broken in the code — with the argparse default
`--max 20` and an empty citation store, the search requests `retmax 20`,
exactly what an incremental run requests, not a larger count; only the
unreachable-by-default `--max 0` triggers the intended 100. -/
theorem C9_bootstrap_retmax :
    search_retmax 0 20 = 20 ∧ search_retmax 1 20 = 20 ∧
    ¬ search_retmax 1 20 < search_retmax 0 20 ∧
    search_retmax 0 0 = 100 := by
  decide

end PubmedJekyll
